import Mathlib

/-!
Shallow embedding of the dashboard-data-api repository (JS, Vercel serverless
endpoints).  JS strings are modelled as `List Char`, machine timestamps
(milliseconds since epoch, `Date.now()` / `Date.parse`) as `Int`, JSON objects
as Lean structures with `Option` fields for possibly-missing/null members, and
`await`-able fallible operations as `Except`-valued functions.  External
collaborators (TomTom search/routing, TwelveData quote/series, the Vercel KV
transport) are passed in as function parameters; the KV store itself is
explicit state threaded through the handlers.
-/

/-- JS strings, modelled as lists of characters. -/
abbrev Str := List Char

/-- Whitespace recognised by JS `String.prototype.trim` (ASCII whitespace
plus NBSP; the exotic Unicode space characters are irrelevant here). -/
def isJsSpace (c : Char) : Bool :=
  c == ' ' || c == '\t' || c == '\n' || c == '\r' ||
  c.toNat == 11 || c.toNat == 12 || c.toNat == 160

/-- JS `s.trim()`: strip leading and trailing whitespace. -/
def trimL (s : Str) : Str :=
  ((s.dropWhile isJsSpace).reverse.dropWhile isJsSpace).reverse

/-- JS `s.toLowerCase()` (ASCII case mapping suffices for the inputs here). -/
def toLowerL (s : Str) : Str := s.map Char.toLower

/-- `clampLen` from api/commute.js lines 38-41: coerce to string, trim, then
truncate to the first `max` characters (`v.slice(0, max)`). -/
def clampLen (s : Str) (max : Nat) : Str :=
  let v := trimL s
  if v.length > max then v.take max else v

/-! ### SHA-1 (crypto.createHash("sha1"), as used by `cacheKey`)
A direct executable implementation over byte lists, 32-bit words as `Nat`
reduced `% 2 ^ 32`. -/

/-- 32-bit rotate left (`n` must be `0 < n < 32`, which holds at all uses). -/
def rotl32 (n x : Nat) : Nat := ((x <<< n) % 2 ^ 32) ||| (x >>> (32 - n))

/-- The SHA-1 round function for round `t`. -/
def sha1F (t b c d : Nat) : Nat :=
  if t < 20 then (b &&& c) ||| ((b ^^^ 0xFFFFFFFF) &&& d)
  else if t < 40 then b ^^^ c ^^^ d
  else if t < 60 then (b &&& c) ||| (b &&& d) ||| (c &&& d)
  else b ^^^ c ^^^ d

/-- The SHA-1 round constant for round `t`. -/
def sha1K (t : Nat) : Nat :=
  if t < 20 then 0x5A827999 else if t < 40 then 0x6ED9EBA1
  else if t < 60 then 0x8F1BBCDC else 0xCA62C1D6

/-- Big-endian grouping of bytes into 32-bit words. -/
def bytesToWords : List Nat → List Nat
  | b0 :: b1 :: b2 :: b3 :: rest =>
      (b0 * 0x1000000 + b1 * 0x10000 + b2 * 0x100 + b3) :: bytesToWords rest
  | _ => []

/-- Extend the 16-word message schedule by `n` further words. -/
def extendW : List Nat → Nat → List Nat
  | w, 0 => w
  | w, n + 1 =>
      let t := w.length
      let x := (w.getD (t - 3) 0) ^^^ (w.getD (t - 8) 0) ^^^
               (w.getD (t - 14) 0) ^^^ (w.getD (t - 16) 0)
      extendW (w ++ [rotl32 1 x]) n

/-- One SHA-1 round: state `(a,b,c,d,e)`, input `(t, w t)`. -/
def sha1Round (st : Nat × Nat × Nat × Nat × Nat) (tw : Nat × Nat) :
    Nat × Nat × Nat × Nat × Nat :=
  let (a, b, c, d, e) := st
  let (t, wt) := tw
  let tmp := (rotl32 5 a + sha1F t b c d + e + sha1K t + wt) % 2 ^ 32
  (tmp, a, rotl32 30 b, c, d)

/-- Compress one 64-byte block into the running hash state. -/
def sha1Block (h : Nat × Nat × Nat × Nat × Nat) (block : List Nat) :
    Nat × Nat × Nat × Nat × Nat :=
  let w := extendW (bytesToWords block) 64
  let r := ((List.range 80).zip w).foldl sha1Round h
  let (a, b, c, d, e) := r
  let (h0, h1, h2, h3, h4) := h
  ((h0 + a) % 2 ^ 32, (h1 + b) % 2 ^ 32, (h2 + c) % 2 ^ 32,
   (h3 + d) % 2 ^ 32, (h4 + e) % 2 ^ 32)

/-- Split a byte list into 64-byte chunks (fuelled by the list length). -/
def chunks64Aux : Nat → List Nat → List (List Nat)
  | 0, _ => []
  | _ + 1, [] => []
  | fuel + 1, l => l.take 64 :: chunks64Aux fuel (l.drop 64)

/-- SHA-1 padding: `0x80`, zeros to 56 mod 64, 64-bit big-endian bit length. -/
def sha1Pad (msg : List Nat) : List Nat :=
  let bitLen := msg.length * 8
  let zeros := (55 + 64 - msg.length % 64) % 64
  msg ++ [0x80] ++ List.replicate zeros 0 ++
    [bitLen / 2 ^ 56 % 256, bitLen / 2 ^ 48 % 256, bitLen / 2 ^ 40 % 256,
     bitLen / 2 ^ 32 % 256, bitLen / 2 ^ 24 % 256, bitLen / 2 ^ 16 % 256,
     bitLen / 2 ^ 8 % 256, bitLen % 256]

/-- Lower-case hex digit for `n < 16`. -/
def hexChar (n : Nat) : Char :=
  if n < 10 then Char.ofNat (48 + n) else Char.ofNat (87 + n)

/-- Eight hex digits of a 32-bit word, most significant first. -/
def wordHex (w : Nat) : List Char :=
  [28, 24, 20, 16, 12, 8, 4, 0].map fun k => hexChar ((w >>> k) % 16)

/-- `.digest("hex")` of SHA-1 over a byte list. -/
def sha1Hex (msg : List Nat) : Str :=
  let padded := sha1Pad msg
  let r := (chunks64Aux padded.length padded).foldl sha1Block
    (0x67452301, 0xEFCDAB89, 0x98BADCFE, 0x10325476, 0xC3D2E1F0)
  let (h0, h1, h2, h3, h4) := r
  wordHex h0 ++ wordHex h1 ++ wordHex h2 ++ wordHex h3 ++ wordHex h4

/-- UTF-8 bytes of one character (`hash.update(string)` defaults to UTF-8). -/
def utf8Bytes (c : Char) : List Nat :=
  let n := c.toNat
  if n < 0x80 then [n]
  else if n < 0x800 then [0xC0 + n / 0x40, 0x80 + n % 0x40]
  else if n < 0x10000 then
    [0xE0 + n / 0x1000, 0x80 + (n / 0x40) % 0x40, 0x80 + n % 0x40]
  else
    [0xF0 + n / 0x40000, 0x80 + (n / 0x1000) % 0x40, 0x80 + (n / 0x40) % 0x40,
     0x80 + n % 0x40]

/-- UTF-8 encoding of a string. -/
def utf8Encode (s : Str) : List Nat := (s.map utf8Bytes).flatten

/-- `cacheKey` from api/commute.js lines 43-47 (the v3 endpoint; the v1/v2
variants differ only in the version tag): lower-case the pair joined with
`||`, SHA-1 it, render as hex, and prefix the version tag. -/
def cacheKey (fromStr toStr : Str) : Str :=
  let raw := toLowerL (fromStr ++ "||".data ++ toStr)
  "dash_commute_v3_".data ++ sha1Hex (utf8Encode raw)

/-! ### api/commute.js: data model, freshness gate, handler -/

/-- A geocoded position (the result shape of `searchOne`/`geocodeOne`). -/
structure Pos where
  label : Str
  lat : Int
  lon : Int
deriving DecidableEq, Repr

/-- The shaped routing result (`tomtomRoute`'s return value; the float
`ratio` member is provider presentation and not part of the cached logic
the claims touch, so it is omitted from the model). -/
structure RouteOut where
  travel_time_sec : Int
  traffic_delay_sec : Int
  distance_m : Option Int
deriving DecidableEq, Repr

/-- The cached and served commute payload (`out`, commute.js lines 195-200).
`updated_iso` is the capture timestamp in epoch milliseconds
(`Date.parse` of the stored ISO string); `none` models a cache entry whose
`updated_iso` member is missing. -/
structure CommuteOut where
  updated_iso : Option Int
  fromPos : Pos
  toPos : Pos
  route : RouteOut
deriving DecidableEq, Repr

/-- `TTL_SEC = 300` (commute.js line 16). -/
def TTL_SEC : Int := 300

/-- commute.js line 181:
`cached?.updated_iso ? Date.parse(cached.updated_iso) : 0`. -/
def cachedAtOf (cached : Option CommuteOut) : Int :=
  match cached with
  | some c => c.updated_iso.getD 0
  | none => 0

/-- commute.js line 182:
`cachedAt && ((Date.now() - cachedAt) / 1000) < TTL_SEC`.
JS float division of an integer millisecond difference by 1000 compared
against the integer TTL is exactly `nowMs - cachedAt < ttlSec * 1000`. -/
def commuteFresh (cached : Option CommuteOut) (nowMs ttlSec : Int) : Bool :=
  cachedAtOf cached != 0 && decide (nowMs - cachedAtOf cached < ttlSec * 1000)

/-- commute.js line 184: `if (cached && fresh)` — serve the snapshot. -/
def serveCachedCommute (cached : Option CommuteOut) (nowMs ttlSec : Int) : Bool :=
  cached.isSome && commuteFresh cached nowMs ttlSec

/-- Client-visible result of the commute endpoint. -/
inductive CommuteResp where
  | ok (body : CommuteOut)
  | badRequest (msg : Str)
  | serverError (msg : Str)
deriving DecidableEq, Repr

/-- The shared KV store, restricted to the commute namespace. -/
abbrev CommuteStore := Str → Option CommuteOut

/-- A successful `kv.set`. -/
def storeSet (st : CommuteStore) (k : Str) (v : CommuteOut) : CommuteStore :=
  fun x => if x = k then some v else st x

/-- The commute handler (commute.js lines 158-209) after the env-var guards,
with the upstream collaborators passed in: `searchOne` (TomTom search) and
`tomtomRoute` (TomTom routing, already shaped), the locality heuristic
`normalizeQueryToChicago` (spec §1: out of scope) as `normalizeQuery`, and
the outcome of the fire-and-forget `kv.set` as `setOk` (line 202 dispatches
the write un-awaited and swallows any failure with `.catch(() => ...)`).
Returns the client-visible response and the store after the request. -/
def commuteHandler (searchOne : Str → Except Str Pos)
    (tomtomRoute : Pos → Pos → Except Str RouteOut)
    (normalizeQuery : Str → Str) (setOk : Bool) (nowMs : Int)
    (qFrom qTo : Str) (store : CommuteStore) : CommuteResp × CommuteStore :=
  let fromRaw := clampLen qFrom 160
  let toRaw := clampLen qTo 160
  if fromRaw = [] ∨ toRaw = [] then
    (.badRequest "Provide query params: from, to".data, store)
  else
    let key := cacheKey fromRaw toRaw
    let cached := store key
    let refresh : CommuteResp × CommuteStore :=
      match searchOne (normalizeQuery fromRaw), searchOne (normalizeQuery toRaw) with
      | .ok fromPos, .ok toPos =>
        match tomtomRoute fromPos toPos with
        | .ok route =>
          let out : CommuteOut :=
            { updated_iso := some nowMs, fromPos := fromPos, toPos := toPos,
              route := route }
          (.ok out, if setOk then storeSet store key out else store)
        | .error e => (.serverError e, store)
      | .error e, _ => (.serverError e, store)
      | _, .error e => (.serverError e, store)
    match cached, commuteFresh cached nowMs TTL_SEC with
    | some c, true => (.ok c, store)
    | _, _ => refresh

/-! ### api/markets.js (part_003, the latest variant): data model -/

/-- A per-symbol quote (`quote`, part_003 lines 32-50); prices are opaque
numbers to the caching logic, modelled as `Int`. -/
structure QuoteData where
  price : Int
  change : Option Int
  percent_change : Option Int
deriving DecidableEq, Repr

/-- One point of a daily close series (`timeSeriesDaily` cleaned output). -/
structure Pt where
  date : Str
  close : Int
deriving DecidableEq, Repr

/-- A history-cache entry as written by `getOrRefreshHistory`:
`{ cached_at: nowIso, series }`, with `cached_at` as parsed epoch ms. -/
structure HistEntry where
  cached_at : Int
  series : List Pt
deriving DecidableEq, Repr

/-- `HISTORY_TTL_MS = 6 * 60 * 60 * 1000` (part_003 line 16). -/
def HISTORY_TTL_MS : Int := 6 * 60 * 60 * 1000

/-- `HISTORY_KEY(sym)` (part_003 line 17). -/
def HISTORY_KEY (sym : Str) : Str := "hist_5d_".data ++ sym

/-- `lastNTradingDays` (part_003 lines 71-74):
`valuesNewestFirst.slice(0, n).reverse()` — exactly the last `n` trading
closes, reordered oldest-first for charting. -/
def lastNTradingDays (valuesNewestFirst : List Pt) (n : Nat) : List Pt :=
  (valuesNewestFirst.take n).reverse

/-- The markets payload (`marketsObj`).  Missing/null JSON members are
`none`; the `symbols`/`history` objects are finite maps modelled as
functions.  The human-readable `updated_local`/`current_fetch_local`
strings (Intl formatting of the same instants) and the redundant
`history_cached_at` mirror of `updated_iso` are presentation only and not
modelled. -/
structure MarketsObj where
  updated_iso : Option Int
  in_hours : Bool
  error : Option Str := none
  symbols : Str → Option QuoteData
  history : Option (Str → Option (List Pt)) := none
  current_fetch_iso : Option Int := none

/-- The KV state visible to the markets endpoint (`CACHE_KEY` entry plus the
per-symbol `HISTORY_KEY` entries), with a ghost counter of upstream series
fetches used to state the call-counting property. -/
structure MarketsState where
  snap : Option MarketsObj
  hist : Str → Option HistEntry
  fetchCount : Nat

/-- A successful `kv.set` on a history key. -/
def histSet (h : Str → Option HistEntry) (k : Str) (v : HistEntry) :
    Str → Option HistEntry :=
  fun x => if x = k then some v else h x

/-- `getOrRefreshHistory` (part_003 lines 76-94).  `fetchSeries` is the
upstream `timeSeriesDaily` collaborator (cleaned values, newest-first);
`setOk` is the outcome of the history-cache write `await kv.set(key, ...)`
on line 91 — the code awaits it with no catch, so a failed write throws out
of the function.  `nowMs` is `Date.now()` (line 81), `nowIso` the handler's
request timestamp written into `cached_at`.  The ghost `fetchCount`
increments once per upstream series fetch issued. -/
def getOrRefreshHistory (fetchSeries : Str → Except Str (List Pt))
    (setOk : Bool) (nowMs nowIso : Int) (sym : Str) (st : MarketsState) :
    Except Str (List Pt) × MarketsState :=
  let cached := st.hist sym
  let serveFromCache : Bool :=
    match cached with
    | some c =>
        (c.cached_at != 0 && decide (nowMs - c.cached_at < HISTORY_TTL_MS))
          && c.series.length != 0
    | none => false
  match cached, serveFromCache with
  | some c, true => (.ok c.series, st)
  | _, _ =>
    match fetchSeries sym with
    | .error e => (.error e, { st with fetchCount := st.fetchCount + 1 })
    | .ok raw =>
      let series := lastNTradingDays raw 5
      let st' := { st with fetchCount := st.fetchCount + 1 }
      let entry : HistEntry := { cached_at := nowIso, series := series }
      if setOk then
        (.ok series, { st' with hist := histSet st'.hist sym entry })
      else
        (.error "KV set failed".data, st')

/-- `Promise.all(syms.map(s => getOrRefreshHistory(s, nowIso)))`, modelled as
the sequential interleaving that runs the symbols left to right and stops at
the first rejection, keeping the effects of the earlier successes (under the
real concurrent semantics at least these writes land). -/
def histAll (fetchSeries : Str → Except Str (List Pt)) (setOk : Bool)
    (nowMs nowIso : Int) :
    List Str → MarketsState → Except Str (List (List Pt)) × MarketsState
  | [], st => (.ok [], st)
  | s :: rest, st =>
    match getOrRefreshHistory fetchSeries setOk nowMs nowIso s st with
    | (.error e, st') => (.error e, st')
    | (.ok series, st') =>
      match histAll fetchSeries setOk nowMs nowIso rest st' with
      | (.error e, st'') => (.error e, st'')
      | (.ok tl, st'') => (.ok (series :: tl), st'')

/-- `Promise.all(syms.map(s => quote(s)))`: all quotes or the first error;
no store interaction. -/
def quotesAll (fetchQuote : Str → Except Str QuoteData) :
    List Str → Except Str (List QuoteData)
  | [] => .ok []
  | s :: rest => do
    let q ← fetchQuote s
    let tl ← quotesAll fetchQuote rest
    pure (q :: tl)

/-- `Object.fromEntries(syms.map((s, i) => [s, vals[i]]))`. -/
def assoc (syms : List Str) (vals : List A) : Str → Option A :=
  fun s => (syms.zip vals).lookup s

/-- `syms = ["SPY", "QQQ", "IAU", "SLV"]` (part_003 line 138). -/
def marketSyms : List Str := ["SPY".data, "QQQ".data, "IAU".data, "SLV".data]

/-- `dowMap` (part_003 line 124). -/
def dowMap : List (Str × Nat) :=
  [("Sun".data, 0), ("Mon".data, 1), ("Tue".data, 2), ("Wed".data, 3),
   ("Thu".data, 4), ("Fri".data, 5), ("Sat".data, 6)]

/-- `marketHoursNow` (part_003 lines 113-130) as a function of the civil
weekday name and hour-of-day that `Intl.DateTimeFormat` (fixed timezone
America/Chicago, `formatToParts`, never a locale-string round-trip) extracts
from the current instant; the civil-time conversion itself is the platform
collaborator.  An unknown weekday key indexes `dowMap` to `undefined`, whose
numeric comparisons are all false. -/
def marketHoursNow (weekday : Str) (hour : Nat) : Bool :=
  match dowMap.lookup weekday with
  | some dayOfWeek =>
      (decide (1 ≤ dayOfWeek) && decide (dayOfWeek ≤ 5))
        && (decide (9 ≤ hour) && decide (hour < 17))
  | none => false

/-- part_003 line 175: `if (!history || !history.SPY || !history.IAU)` — the
schema probe tests only the SPY and IAU keys (JS falsiness: a missing or
null member is falsy; note an empty array would be truthy). -/
def backfillNeeded (history : Option (Str → Option (List Pt))) : Bool :=
  match history with
  | none => true
  | some h => (h "SPY".data).isNone || (h "IAU".data).isNone

/-- Client-visible result of the markets endpoint: `res.send(js)` with the
embedded payload (HTTP success) or `res.status(500)`. -/
inductive MarketsResp where
  | ok (body : MarketsObj)
  | err (msg : Str)

/-- Whether the response is an HTTP success carrying a payload. -/
def MarketsResp.isOk : MarketsResp → Bool
  | .ok _ => true
  | .err _ => false

/-- The embedded payload of a success response. -/
def MarketsResp.body : MarketsResp → Option MarketsObj
  | .ok b => some b
  | .err _ => none

/-- The markets handler (part_003 lines 132-215), with the collaborators and
write outcomes passed in: `fetchQuote`/`fetchSeries` the TwelveData
collaborators; `histSetOk` the outcome of the awaited history-cache write
inside `getOrRefreshHistory`; `snapSetOk` the outcome of the fire-and-forget
primary `kv.set(CACHE_KEY, ...)` (line 163: dispatched un-awaited, failure
only logged).  `isMarketHours` is `marketHoursNow` applied to the civil
parts of the current instant. -/
def marketsHandler (fetchQuote : Str → Except Str QuoteData)
    (fetchSeries : Str → Except Str (List Pt)) (histSetOk snapSetOk : Bool)
    (nowMs nowIso : Int) (isMarketHours : Bool) (st : MarketsState) :
    MarketsResp × MarketsState :=
  if isMarketHours then
    match quotesAll fetchQuote marketSyms with
    | .error e => (.err e, st)
    | .ok quotes =>
      match histAll fetchSeries histSetOk nowMs nowIso marketSyms st with
      | (.error e, st') => (.err e, st')
      | (.ok histories, st') =>
        let obj : MarketsObj :=
          { updated_iso := some nowIso
            in_hours := true
            symbols := assoc marketSyms quotes
            history := some (assoc marketSyms histories) }
        let st'' := if snapSetOk then { st' with snap := some obj } else st'
        (.ok obj, st'')
  else
    match st.snap with
    | some cached =>
      if backfillNeeded cached.history then
        match histAll fetchSeries histSetOk nowMs nowIso marketSyms st with
        | (.error e, st') => (.err e, st')
        | (.ok histories, st') =>
          (.ok { cached with
                  in_hours := false
                  current_fetch_iso := some nowIso
                  history := some (assoc marketSyms histories) }, st')
      else
        (.ok { cached with
                in_hours := false
                current_fetch_iso := some nowIso }, st)
    | none =>
      match histAll fetchSeries histSetOk nowMs nowIso marketSyms st with
      | (.error e, st') => (.err e, st')
      | (.ok histories, st') =>
        (.ok { updated_iso := none
               in_hours := false
               error := some "No previous market data cached".data
               symbols := fun _ => none
               history := some (assoc marketSyms histories) }, st')

/-- `["SPY", "IAU"]`, the symbols of the older markets endpoint. -/
def oldSyms : List Str := ["SPY".data, "IAU".data]

/-- The older markets handler (src/api/markets.js lines 39-135): no history
cache; inactive-window requests never touch upstream at all. -/
def marketsHandlerOld (fetchQuote : Str → Except Str QuoteData)
    (snapSetOk : Bool) (nowIso : Int) (isMarketHours : Bool)
    (snap : Option MarketsObj) : MarketsResp × Option MarketsObj :=
  if isMarketHours then
    match quotesAll fetchQuote oldSyms with
    | .error e => (.err e, snap)
    | .ok quotes =>
      let obj : MarketsObj :=
        { updated_iso := some nowIso
          in_hours := true
          symbols := assoc oldSyms quotes }
      (.ok obj, if snapSetOk then some obj else snap)
  else
    match snap with
    | some cached =>
      (.ok { cached with
              in_hours := false
              current_fetch_iso := some nowIso }, snap)
    | none =>
      (.ok { updated_iso := none
             in_hours := false
             error := some "No previous market data cached".data
             symbols := fun _ => none }, snap)

/-! ### Concrete fixtures (collaborators, states, payloads) used by
the concrete-instance theorems below -/

/-- A commute snapshot with capture timestamp `t` and a fixed payload. -/
def snapAt (t : Int) : CommuteOut :=
  { updated_iso := some t
    fromPos := { label := "a".data, lat := 0, lon := 0 }
    toPos := { label := "b".data, lat := 1, lon := 1 }
    route := { travel_time_sec := 600, traffic_delay_sec := 0,
               distance_m := none } }

/-- The weekday names that `dowMap` sends into the weekday range `1..5`. -/
def weekdayNames : List Str :=
  ["Mon".data, "Tue".data, "Wed".data, "Thu".data, "Fri".data]

/-- A placeholder trading point used as a `getD` default. -/
def dummyPt : Pt := { date := [], close := 0 }

/-- A constant successful quote collaborator. -/
def constQuote : Str → Except Str QuoteData :=
  fun _ => .ok { price := 100, change := none, percent_change := none }

/-- A constant successful series collaborator (one point, newest-first). -/
def constSeries : Str → Except Str (List Pt) :=
  fun _ => .ok [{ date := "2025-01-02".data, close := 10 }]

/-- The empty markets store state. -/
def st0 : MarketsState := { snap := none, hist := fun _ => none, fetchCount := 0 }

/-- A series collaborator that succeeds for SPY but fails for QQQ. -/
def partialSeries : Str → Except Str (List Pt) :=
  fun s => if s = "QQQ".data then .error "HTTP 500".data
           else .ok [{ date := "2025-01-02".data, close := 10 }]

/-- A series collaborator that always fails. -/
def failSeries : Str → Except Str (List Pt) := fun _ => .error "HTTP 500".data

/-- A series collaborator whose cleaned result is empty. -/
def emptySeries : Str → Except Str (List Pt) := fun _ => .ok []

/-- The per-symbol history field of a success response probed at `s`:
`some none` means the response carries a history map with no entry for `s`;
`none` means an error response or a response with no history map at all. -/
def respHistoryAt (r : MarketsResp) (s : Str) : Option (Option (List Pt)) :=
  match r with
  | .ok o => o.history.map fun h => h s
  | .err _ => none

/-- A cached history map holding SPY and IAU but neither QQQ nor SLV. -/
def partialHistMap : Str → Option (List Pt) :=
  fun s => if s = "SPY".data ∨ s = "IAU".data
           then some [{ date := "2025-01-02".data, close := 10 }] else none

/-- A cached snapshot carrying the partial history map. -/
def partialSnap : MarketsObj :=
  { updated_iso := some 500
    in_hours := true
    symbols := fun _ => none
    history := some partialHistMap }

/-- A store state holding the partial snapshot and no history entries. -/
def stPartial : MarketsState :=
  { snap := some partialSnap, hist := fun _ => none, fetchCount := 0 }

/-- A cached snapshot written by the oldest schema: no history field. -/
def noHistSnap : MarketsObj :=
  { updated_iso := some 500
    in_hours := true
    symbols := fun _ => none }

/-- A store state holding the history-less snapshot. -/
def stNoHist : MarketsState :=
  { snap := some noHistSnap, hist := fun _ => none, fetchCount := 0 }

/-- A geocoding collaborator that always fails. -/
def failSearch : Str → Except Str Pos := fun _ => .error "Search failed".data

/-- A routing collaborator that always succeeds. -/
def constRoute : Pos → Pos → Except Str RouteOut :=
  fun _ _ => .ok { travel_time_sec := 600, traffic_delay_sec := 0,
                   distance_m := none }

/-! ### Helper lemmas -/

/-- The cache key is a function of the joined raw string alone. -/
theorem cacheKey_raw_congr {f1 t1 f2 t2 : Str}
    (h : f1 ++ "||".data ++ t1 = f2 ++ "||".data ++ t2) :
    cacheKey f1 t1 = cacheKey f2 t2 := by
  unfold cacheKey
  rw [h]

/-- The cache key is a function of the lower-cased parts. -/
theorem cacheKey_congr {f1 t1 f2 t2 : Str}
    (hf : toLowerL f1 = toLowerL f2) (ht : toLowerL t1 = toLowerL t2) :
    cacheKey f1 t1 = cacheKey f2 t2 := by
  unfold cacheKey toLowerL
  simp only [List.map_append]
  simp only [toLowerL] at hf ht
  rw [hf, ht]

/-- `clampLen s max` is the first `max` characters of the trimmed string. -/
theorem clampLen_eq_take (s : Str) (max : Nat) :
    clampLen s max = (trimL s).take max := by
  by_cases h : (trimL s).length > max
  · simp [clampLen, h]
  · simp [clampLen, h, List.take_of_length_le (Nat.le_of_not_lt h)]

/-- Lower-casing commutes with truncation. -/
theorem toLowerL_take (s : Str) (n : Nat) :
    toLowerL (s.take n) = (toLowerL s).take n := by
  unfold toLowerL
  exact List.map_take ..

/-! ### Claim theorems -/

/-- C1 (amended): the freshness decision serves the snapshot iff it is
present, its `updated_iso` timestamp is present and nonzero (truthy), and its
age `nowMs - capturedAt` is below the TTL.  In particular an absent snapshot
is STALE, one captured 200 seconds ago with `ttlSeconds = 300` is FRESH and
one captured 301 seconds ago is STALE.  The code imposes no lower bound on
the age: the claim's negative-age clause does not hold (see the
counterexample below). -/
theorem commute_freshness_decision :
    (∀ (cached : Option CommuteOut) (nowMs ttlSec : Int),
      serveCachedCommute cached nowMs ttlSec = true ↔
        ∃ c t, cached = some c ∧ c.updated_iso = some t ∧ t ≠ 0 ∧
          nowMs - t < ttlSec * 1000)
    ∧ (∀ nowMs ttlSec : Int, serveCachedCommute none nowMs ttlSec = false)
    ∧ serveCachedCommute (some (snapAt 999800000)) 1000000000 TTL_SEC = true
    ∧ serveCachedCommute (some (snapAt 999699000)) 1000000000 TTL_SEC = false := by
  refine ⟨?_, fun _ _ => rfl, by decide, by decide⟩
  intro cached nowMs ttlSec
  rcases cached with _ | c
  · simp [serveCachedCommute]
  · rcases hu : c.updated_iso with _ | t
    · simp [serveCachedCommute, commuteFresh, cachedAtOf, hu]
    · simp [serveCachedCommute, commuteFresh, cachedAtOf, hu]

/-- C1 counterexample: a snapshot whose capture timestamp lies 100 seconds in
the future (negative age, clock skew) is served as FRESH by the code, whereas
the claim requires STALE for every negative age. -/
theorem commute_freshness_future_cex :
    serveCachedCommute (some (snapAt 1000100000)) 1000000000 TTL_SEC = true
    ∧ (1000000000 : Int) - 1000100000 < 0 := ⟨by decide, by decide⟩

/-- C4 (amended): the key deriver is deterministic on normalized input — two
input tuples whose parts are equal after trimming and lower-casing yield the
same key once they pass through the handler's `clampLen` trimming — and every
key carries the 16-character version tag `dash_commute_v3_` as a prefix.  The
claim's injectivity rationale fails: the separator `||` CAN occur inside a
normalized part, so two tuples distinct after normalization can join to the
same raw string and collide (see the counterexample). -/
theorem cacheKey_normalized_spec :
    (∀ f1 t1 f2 t2 : Str,
      toLowerL (trimL f1) = toLowerL (trimL f2) →
      toLowerL (trimL t1) = toLowerL (trimL t2) →
      cacheKey (clampLen f1 160) (clampLen t1 160)
        = cacheKey (clampLen f2 160) (clampLen t2 160))
    ∧ ∀ f t : Str, (cacheKey f t).take 16 = "dash_commute_v3_".data := by
  constructor
  · intro f1 t1 f2 t2 hf ht
    apply cacheKey_congr <;>
      rw [clampLen_eq_take, clampLen_eq_take, toLowerL_take, toLowerL_take]
    · rw [hf]
    · rw [ht]
  · intro f t
    show ("dash_commute_v3_".data ++ _).take 16 = "dash_commute_v3_".data
    rw [show (16 : Nat) = "dash_commute_v3_".data.length from rfl]
    exact List.take_left ..

/-- C4 witness: two concretely normalized-equal tuples derive the same key. -/
theorem cacheKey_normalized_spec_witness :
    cacheKey (clampLen " A".data 160) (clampLen "b".data 160)
      = cacheKey (clampLen "a ".data 160) (clampLen "B".data 160) :=
  cacheKey_normalized_spec.1 " A".data "b".data "a ".data "B".data
    (by decide) (by decide)

/-- C4 counterexample: the tuples `("a||b", "c")` and `("a", "b||c")` are
distinct after normalization (each part already trimmed and lower-cased) yet
join to the same raw string `a||b||c` and therefore derive the identical
cache key — the separator is not unambiguous. -/
theorem cacheKey_collision_cex :
    cacheKey "a||b".data "c".data = cacheKey "a".data "b||c".data
    ∧ (toLowerL (trimL "a||b".data), toLowerL (trimL "c".data))
        ≠ (toLowerL (trimL "a".data), toLowerL (trimL "b||c".data)) :=
  ⟨cacheKey_raw_congr (by decide), by decide⟩

/-- C5: the business-hours policy, evaluated on the weekday name and
hour-of-day extracted in the fixed civil timezone, is active iff the weekday
is Monday through Friday and the hour lies in `[9, 17)`; in particular
Tuesday 10:00 is active and Saturday 10:00 and Tuesday 20:00 are not. -/
theorem marketHoursNow_spec :
    (∀ (weekday : Str) (hour : Nat),
      marketHoursNow weekday hour = true ↔
        (weekday ∈ weekdayNames ∧ 9 ≤ hour ∧ hour < 17))
    ∧ marketHoursNow "Tue".data 10 = true
    ∧ marketHoursNow "Sat".data 10 = false
    ∧ marketHoursNow "Tue".data 20 = false := by
  refine ⟨?_, by decide, by decide, by decide⟩
  intro w h
  by_cases h0 : w = (['S', 'u', 'n'] : Str)
  · subst h0; simp [marketHoursNow, dowMap, List.lookup_cons, weekdayNames]
  by_cases h1 : w = (['M', 'o', 'n'] : Str)
  · subst h1; simp [marketHoursNow, dowMap, List.lookup_cons, weekdayNames]
  by_cases h2 : w = (['T', 'u', 'e'] : Str)
  · subst h2; simp [marketHoursNow, dowMap, List.lookup_cons, weekdayNames]
  by_cases h3 : w = (['W', 'e', 'd'] : Str)
  · subst h3; simp [marketHoursNow, dowMap, List.lookup_cons, weekdayNames]
  by_cases h4 : w = (['T', 'h', 'u'] : Str)
  · subst h4; simp [marketHoursNow, dowMap, List.lookup_cons, weekdayNames]
  by_cases h5 : w = (['F', 'r', 'i'] : Str)
  · subst h5; simp [marketHoursNow, dowMap, List.lookup_cons, weekdayNames]
  by_cases h6 : w = (['S', 'a', 't'] : Str)
  · subst h6; simp [marketHoursNow, dowMap, List.lookup_cons, weekdayNames]
  · simp [marketHoursNow, dowMap, List.lookup_cons, weekdayNames, h0, h1, h2,
      h3, h4, h5, h6, beq_eq_false_iff_ne.mpr h0, beq_eq_false_iff_ne.mpr h1,
      beq_eq_false_iff_ne.mpr h2, beq_eq_false_iff_ne.mpr h3,
      beq_eq_false_iff_ne.mpr h4, beq_eq_false_iff_ne.mpr h5,
      beq_eq_false_iff_ne.mpr h6]

/-- C9: the truncate-and-reverse step returns exactly the reverse of the
first `min n (length)` elements of the newest-first input — the `n` most
recent points reordered oldest-first — so its length is `min n (length)`
(hence at most `n`), reversing it recovers `take n` of the input, and its
`i`-th element is the input's element at position `min n (length) - 1 - i`. -/
theorem lastNTradingDays_spec :
    ∀ (l : List Pt) (n : Nat),
      (lastNTradingDays l n).length = min n l.length
      ∧ (lastNTradingDays l n).length ≤ n
      ∧ (lastNTradingDays l n).reverse = l.take n
      ∧ ∀ i : Nat, i < min n l.length →
          (lastNTradingDays l n).getD i dummyPt
            = l.getD (min n l.length - 1 - i) dummyPt := by
  intro l n
  refine ⟨by simp [lastNTradingDays], by simp [lastNTradingDays],
    by simp [lastNTradingDays], ?_⟩
  intro i hi
  have hlen : (l.take n).length = min n l.length := List.length_take ..
  have hi' : i < (l.take n).length := by omega
  rw [lastNTradingDays, List.getD_eq_getElem?_getD, List.getD_eq_getElem?_getD,
    List.getElem?_reverse (by simpa using hi'), List.length_take]
  have hlt : min n l.length - 1 - i < n := by omega
  rw [List.getElem?_take_of_lt hlt]

/-- C10 (implicit): each commute query parameter is trimmed and then
truncated to its first 160 characters (`clampLen`), and this happens before
cache-key derivation; consequently two requests whose parameters agree on
the first 160 characters of their trimmed values, case-insensitively, derive
the identical cache key and therefore read the same cache entry from any
store, even if the raw inputs differ beyond that length. -/
theorem clampLen_truncation_spec :
    (∀ s : Str, clampLen s 160 = (trimL s).take 160)
    ∧ (∀ f1 t1 f2 t2 : Str,
        toLowerL ((trimL f1).take 160) = toLowerL ((trimL f2).take 160) →
        toLowerL ((trimL t1).take 160) = toLowerL ((trimL t2).take 160) →
        cacheKey (clampLen f1 160) (clampLen t1 160)
          = cacheKey (clampLen f2 160) (clampLen t2 160)
        ∧ ∀ store : CommuteStore,
            store (cacheKey (clampLen f1 160) (clampLen t1 160))
              = store (cacheKey (clampLen f2 160) (clampLen t2 160))) := by
  refine ⟨fun s => clampLen_eq_take s 160, ?_⟩
  intro f1 t1 f2 t2 hf ht
  have hk : cacheKey (clampLen f1 160) (clampLen t1 160)
      = cacheKey (clampLen f2 160) (clampLen t2 160) := by
    apply cacheKey_congr <;>
      rw [clampLen_eq_take, clampLen_eq_take, toLowerL_take, toLowerL_take,
        ← toLowerL_take, ← toLowerL_take]
    · rw [hf]
    · rw [ht]
  exact ⟨hk, fun store => congrArg store hk⟩

/-- C10 witness: two concrete raw inputs that agree on the first 160
characters of their trimmed values only case-insensitively (and differ
beyond trimming) derive the same key. -/
theorem clampLen_truncation_spec_witness :
    cacheKey (clampLen "  Union Station".data 160) (clampLen "Willis Tower ".data 160)
      = cacheKey (clampLen "union station".data 160) (clampLen "WILLIS TOWER".data 160) :=
  (clampLen_truncation_spec.2 "  Union Station".data "Willis Tower ".data
    "union station".data "WILLIS TOWER".data (by decide) (by decide)).1

/-! ### State-preservation lemmas for the markets model -/

/-- `getOrRefreshHistory` never touches the primary snapshot entry. -/
theorem getOrRefreshHistory_snap (fetchSeries : Str → Except Str (List Pt))
    (setOk : Bool) (nowMs nowIso : Int) (sym : Str) (st : MarketsState) :
    ((getOrRefreshHistory fetchSeries setOk nowMs nowIso sym st).2).snap
      = st.snap := by
  unfold getOrRefreshHistory
  dsimp only
  repeat' split <;> try rfl

/-- `histAll` never touches the primary snapshot entry. -/
theorem histAll_snap (fetchSeries : Str → Except Str (List Pt)) (setOk : Bool)
    (nowMs nowIso : Int) (syms : List Str) (st : MarketsState) :
    ((histAll fetchSeries setOk nowMs nowIso syms st).2).snap = st.snap := by
  induction syms generalizing st with
  | nil => rfl
  | cons s rest ih =>
    unfold histAll
    cases hg : getOrRefreshHistory fetchSeries setOk nowMs nowIso s st with
    | mk r st' =>
      have hs : st'.snap = st.snap := by
        have := getOrRefreshHistory_snap fetchSeries setOk nowMs nowIso s st
        rw [hg] at this
        exact this
      cases r with
      | error e => simpa using hs
      | ok series =>
        cases hrest : histAll fetchSeries setOk nowMs nowIso rest st' with
        | mk r2 st'' =>
          have h2 : st''.snap = st'.snap := by
            have := ih st'
            rw [hrest] at this
            exact this
          cases r2 <;> simp [hrest, h2, hs]

/-- If one quote fetch of the batch fails, `Promise.all` rejects. -/
theorem quotesAll_mem_error (fetchQuote : Str → Except Str QuoteData)
    (syms : List Str) (s : Str) (e : Str) (hmem : s ∈ syms)
    (herr : fetchQuote s = .error e) :
    ∃ e2, quotesAll fetchQuote syms = .error e2 := by
  induction syms with
  | nil => cases hmem
  | cons s0 rest ih =>
    rcases List.mem_cons.mp hmem with h0 | hrest
    · subst h0
      exact ⟨e, by simp only [quotesAll, herr]; rfl⟩
    · cases hq : fetchQuote s0 with
      | error e0 => exact ⟨e0, by simp only [quotesAll, hq]; rfl⟩
      | ok q =>
        obtain ⟨e2, h2⟩ := ih hrest
        exact ⟨e2, by simp only [quotesAll, hq, h2]; rfl⟩

/-- C2 (amended): the fire-and-forget snapshot writes never affect the
client-visible result — the commute handler's `kv.set(key, out).catch(...)`
and both markets handlers' `kv.set(CACHE_KEY, ...)` are dispatched
un-awaited with failures swallowed and logged, so the response is identical
whether they succeed or fail.  The per-symbol history-cache write, however,
is `await`-ed with no catch inside `getOrRefreshHistory`, so its failure
does surface to the caller (see the counterexample). -/
theorem fire_and_forget_writes_spec :
    (∀ (so : Str → Except Str Pos) (ro : Pos → Pos → Except Str RouteOut)
       (nq : Str → Str) (s1 s2 : Bool) (nowMs : Int) (qF qT : Str)
       (store : CommuteStore),
      (commuteHandler so ro nq s1 nowMs qF qT store).1
        = (commuteHandler so ro nq s2 nowMs qF qT store).1)
    ∧ (∀ (fq : Str → Except Str QuoteData) (fs : Str → Except Str (List Pt))
         (hso s1 s2 : Bool) (nowMs nowIso : Int) (mh : Bool)
         (st : MarketsState),
        (marketsHandler fq fs hso s1 nowMs nowIso mh st).1
          = (marketsHandler fq fs hso s2 nowMs nowIso mh st).1)
    ∧ (∀ (fq : Str → Except Str QuoteData) (s1 s2 : Bool) (nowIso : Int)
         (mh : Bool) (snap : Option MarketsObj),
        (marketsHandlerOld fq s1 nowIso mh snap).1
          = (marketsHandlerOld fq s2 nowIso mh snap).1) := by
  refine ⟨?_, ?_, ?_⟩
  · intro so ro nq s1 s2 nowMs qF qT store
    unfold commuteHandler
    dsimp only
    repeat' split <;> try rfl
  · intro fq fs hso s1 s2 nowMs nowIso mh st
    unfold marketsHandler
    dsimp only
    repeat' split <;> try rfl
  · intro fq s1 s2 nowIso mh snap
    unfold marketsHandlerOld
    dsimp only
    repeat' split <;> try rfl

/-- C2 counterexample: with every upstream fetch succeeding, the same active
window request succeeds when the per-symbol history-cache write succeeds but
fails (HTTP 500) when that write fails — the client-visible result does
depend on the outcome of this cache write. -/
theorem history_write_failure_cex :
    (marketsHandler constQuote constSeries false true 1000 1000 true st0).1.isOk
      = false
    ∧ (marketsHandler constQuote constSeries true true 1000 1000 true st0).1.isOk
      = true := by
  exact ⟨rfl, rfl⟩

/-- C3 (amended): a refresh cycle in which an upstream fetch fails aborts
with an error and never writes the snapshot being refreshed — the commute
handler leaves the whole store untouched when a geocode or routing fetch
fails, and the markets handler leaves the prior `CACHE_KEY` entry untouched
whenever the request fails (in particular a failed quote fetch aborts the
cycle with the state fully unchanged).  However, sibling per-symbol history
entries fetched successfully in the same parallel batch may already have
been written when the cycle aborts (see the counterexample), so the abort is
not literally "before any store write". -/
theorem refresh_failure_no_partial_write :
    (∀ (so : Str → Except Str Pos) (ro : Pos → Pos → Except Str RouteOut)
       (nq : Str → Str) (setOk : Bool) (nowMs : Int) (qF qT : Str)
       (store : CommuteStore),
      clampLen qF 160 ≠ [] → clampLen qT 160 ≠ [] →
      serveCachedCommute
        (store (cacheKey (clampLen qF 160) (clampLen qT 160))) nowMs TTL_SEC
          = false →
      ((∃ e, so (nq (clampLen qF 160)) = .error e) ∨
       (∃ e, so (nq (clampLen qT 160)) = .error e) ∨
       (∀ p1 p2, ∃ e, ro p1 p2 = .error e)) →
      (∃ e, (commuteHandler so ro nq setOk nowMs qF qT store).1
              = .serverError e)
      ∧ (commuteHandler so ro nq setOk nowMs qF qT store).2 = store)
    ∧ (∀ (fq : Str → Except Str QuoteData) (fs : Str → Except Str (List Pt))
         (hso sso : Bool) (nowMs nowIso : Int) (mh : Bool)
         (st : MarketsState),
        (marketsHandler fq fs hso sso nowMs nowIso mh st).1.isOk = false →
        ((marketsHandler fq fs hso sso nowMs nowIso mh st).2).snap = st.snap)
    ∧ (∀ (fq : Str → Except Str QuoteData) (fs : Str → Except Str (List Pt))
         (hso sso : Bool) (nowMs nowIso : Int) (st : MarketsState)
         (s e : Str),
        s ∈ marketSyms → fq s = .error e →
        (marketsHandler fq fs hso sso nowMs nowIso true st).1.isOk = false
        ∧ (marketsHandler fq fs hso sso nowMs nowIso true st).2 = st)
    ∧ commuteHandler failSearch constRoute (fun q => q) true 1000
        "home".data "work".data (fun _ => none)
        = (.serverError "Search failed".data, fun _ => none) := by
  refine ⟨?_, ?_, ?_, rfl⟩
  · intro so ro nq setOk nowMs qF qT store hne1 hne2 hstale hfails
    unfold commuteHandler
    dsimp only
    rw [if_neg (by rintro (h | h) <;> [exact hne1 h; exact hne2 h])]
    rcases hc : store (cacheKey (clampLen qF 160) (clampLen qT 160)) with _ | c
    · rw [hc] at hstale
      simp only [hc]
      rcases hfails with ⟨e, he⟩ | ⟨e, he⟩ | hro
      · simp [he]
      · rcases hf : so (nq (clampLen qF 160)) with e2 | p1
        · simp [hf]
        · simp [hf, he]
      · rcases hf : so (nq (clampLen qF 160)) with e2 | p1
        · simp [hf]
        · rcases ht : so (nq (clampLen qT 160)) with e2 | p2
          · simp [hf, ht]
          · obtain ⟨e, he⟩ := hro p1 p2
            simp [hf, ht, he]
    · rw [hc] at hstale
      have hfr : commuteFresh (some c) nowMs TTL_SEC = false := by
        simpa [serveCachedCommute] using hstale
      simp only [hc, hfr]
      rcases hfails with ⟨e, he⟩ | ⟨e, he⟩ | hro
      · simp [he]
      · rcases hf : so (nq (clampLen qF 160)) with e2 | p1
        · simp [hf]
        · simp [hf, he]
      · rcases hf : so (nq (clampLen qF 160)) with e2 | p1
        · simp [hf]
        · rcases ht : so (nq (clampLen qT 160)) with e2 | p2
          · simp [hf, ht]
          · obtain ⟨e, he⟩ := hro p1 p2
            simp [hf, ht, he]
  · intro fq fs hso sso nowMs nowIso mh st hfail
    unfold marketsHandler at hfail ⊢
    rcases hh : histAll fs hso nowMs nowIso marketSyms st with ⟨r, st2⟩
    have h2 : st2.snap = st.snap := by
      have := histAll_snap fs hso nowMs nowIso marketSyms st
      rw [hh] at this
      exact this
    cases mh with
    | false =>
      rw [if_neg (by simp)] at hfail ⊢
      rcases hs : st.snap with _ | cached
      · simp only [hs, hh] at hfail ⊢
        cases r with
        | error e => exact h2.trans hs
        | ok hsx => simp [MarketsResp.isOk] at hfail
      · simp only [hs] at hfail ⊢
        cases hbf : backfillNeeded cached.history with
        | false =>
          simp only [hbf, Bool.false_eq_true, if_false] at hfail
          simp [MarketsResp.isOk] at hfail
        | true =>
          simp only [hbf, if_true, hh] at hfail ⊢
          cases r with
          | error e => exact h2.trans hs
          | ok hsx => simp [MarketsResp.isOk] at hfail
    | true =>
      rw [if_pos rfl] at hfail ⊢
      rcases hq : quotesAll fq marketSyms with e | quotes
      · simp only [hq] at hfail ⊢
        try rfl
      · simp only [hq, hh] at hfail ⊢
        cases r with
        | error e => simpa using h2
        | ok hsx => simp [MarketsResp.isOk] at hfail
  · intro fq fs hso sso nowMs nowIso st s e hmem herr
    obtain ⟨e2, h2⟩ := quotesAll_mem_error fq marketSyms s e hmem herr
    constructor
    · unfold marketsHandler
      simp [h2, MarketsResp.isOk]
    · unfold marketsHandler
      simp [h2]

/-- C3 counterexample: with the QQQ series fetch failing and the SPY series
fetch succeeding in the same parallel batch, the cycle aborts with an error
— yet the SPY history entry has already been written to the store, so a
store write does occur before the failed cycle aborts. -/
theorem refresh_failure_sibling_write_cex :
    (marketsHandler constQuote partialSeries true true 1000 1000 true st0).1.isOk
      = false
    ∧ (marketsHandler constQuote partialSeries true true 1000 1000 true st0).2.hist
        "SPY".data ≠ none
    ∧ st0.hist "SPY".data = none := by
  refine ⟨rfl, by decide, rfl⟩

/-- C6 (amended): an inactive-window request with no prior snapshot yields an
HTTP-success response whose updated timestamp is null, whose `in_hours` flag
is false, whose error marker is set and whose per-symbol values are all null
— unconditionally in the older markets endpoint, and in the latest endpoint
provided the per-symbol history backfill succeeds; a failing backfill fetch
instead fails the request (see the counterexample). -/
theorem inactive_no_snapshot_spec :
    (∀ (fq : Str → Except Str QuoteData) (sso : Bool) (nowIso : Int),
      marketsHandlerOld fq sso nowIso false none
        = (.ok { updated_iso := none
                 in_hours := false
                 error := some "No previous market data cached".data
                 symbols := fun _ => none }, none))
    ∧ (∀ (fq : Str → Except Str QuoteData) (fs : Str → Except Str (List Pt))
         (hso sso : Bool) (nowMs nowIso : Int) (st : MarketsState)
         (hs : List (List Pt)),
        st.snap = none →
        (histAll fs hso nowMs nowIso marketSyms st).1 = .ok hs →
        (marketsHandler fq fs hso sso nowMs nowIso false st).1
          = .ok { updated_iso := none
                  in_hours := false
                  error := some "No previous market data cached".data
                  symbols := fun _ => none
                  history := some (assoc marketSyms hs) })
    ∧ ((marketsHandler constQuote constSeries true true 1000 1000 false
          st0).1.body.map fun o => (o.updated_iso, o.in_hours, o.error.isSome))
        = some (none, false, true) := by
  refine ⟨?_, ?_, rfl⟩
  · intro fq sso nowIso
    rfl
  · intro fq fs hso sso nowMs nowIso st hs hsnap hok
    unfold marketsHandler
    rw [if_neg (by simp)]
    rcases hh : histAll fs hso nowMs nowIso marketSyms st with ⟨r, st2⟩
    rw [hh] at hok
    simp only at hok
    subst hok
    simp [hsnap, hh]

/-- C6 counterexample: in the latest markets endpoint the very same
inactive-window, no-prior-snapshot request fails with a server error — not
an HTTP-success null-filled response — when the history backfill fetch
fails. -/
theorem inactive_no_snapshot_backfill_failure_cex :
    (marketsHandler constQuote failSeries true true 1000 1000 false st0).1.isOk
      = false := rfl

/-! ### Behaviour lemmas for `getOrRefreshHistory` (history cache) -/

/-- An absent entry forces one upstream fetch and a write stamped `nowIso`. -/
theorem getOrRefresh_absent (fs : Str → Except Str (List Pt))
    (nowMs nowIso : Int) (sym : Str) (st : MarketsState) (raw : List Pt)
    (hnone : st.hist sym = none) (hfs : fs sym = .ok raw) :
    getOrRefreshHistory fs true nowMs nowIso sym st
      = (.ok (lastNTradingDays raw 5),
         { snap := st.snap
           hist := histSet st.hist sym
             { cached_at := nowIso, series := lastNTradingDays raw 5 }
           fetchCount := st.fetchCount + 1 }) := by
  unfold getOrRefreshHistory
  simp [hnone, hfs]

/-- A fresh, truthy, nonempty entry is served with no fetch and no write. -/
theorem getOrRefresh_fresh (fs : Str → Except Str (List Pt)) (setOk : Bool)
    (nowMs nowIso : Int) (sym : Str) (st : MarketsState) (e : HistEntry)
    (hsome : st.hist sym = some e) (hat : e.cached_at ≠ 0)
    (hage : nowMs - e.cached_at < HISTORY_TTL_MS) (hne : e.series ≠ []) :
    getOrRefreshHistory fs setOk nowMs nowIso sym st = (.ok e.series, st) := by
  have h1 : (e.cached_at != 0) = true := bne_iff_ne.mpr hat
  have h2 : (e.series.length != 0) = true :=
    bne_iff_ne.mpr fun h => hne (List.length_eq_zero.mp h)
  unfold getOrRefreshHistory
  simp [hsome, hage, h1, h2]

/-- An entry whose age has reached the TTL forces a fetch and an overwrite
stamped with the fresh `nowIso`. -/
theorem getOrRefresh_expired (fs : Str → Except Str (List Pt))
    (nowMs nowIso : Int) (sym : Str) (st : MarketsState) (e : HistEntry)
    (raw : List Pt) (hsome : st.hist sym = some e)
    (hage : HISTORY_TTL_MS ≤ nowMs - e.cached_at) (hfs : fs sym = .ok raw) :
    getOrRefreshHistory fs true nowMs nowIso sym st
      = (.ok (lastNTradingDays raw 5),
         { snap := st.snap
           hist := histSet st.hist sym
             { cached_at := nowIso, series := lastNTradingDays raw 5 }
           fetchCount := st.fetchCount + 1 }) := by
  unfold getOrRefreshHistory
  simp [hsome, hfs, not_lt.mpr hage]

/-- C7 (amended): for a symbol with no cached entry, the first
`getOrRefreshHistory` call issues one upstream series fetch and writes the
truncated series stamped with the request timestamp; a second call within
the 6-hour window that sees this entry issues no further fetch and returns
it unchanged — provided the written series is nonempty (an empty cached
series is treated as absent and refetched, see the counterexample) — so the
two calls issue exactly one upstream fetch in total; a further call at or
past the 6-hour window issues a second fetch and overwrites the entry with
a fresh `cached_at`; and the result is independent of the primary
snapshot's entry (hence of its freshness). -/
theorem historyCache_ttl_spec :
    (∀ (fs : Str → Except Str (List Pt)) (nowMs1 nowIso1 nowMs2 nowIso2 : Int)
       (sym : Str) (st : MarketsState) (raw : List Pt),
      st.hist sym = none → fs sym = .ok raw →
      lastNTradingDays raw 5 ≠ [] → nowIso1 ≠ 0 →
      nowMs2 - nowIso1 < HISTORY_TTL_MS →
      ((getOrRefreshHistory fs true nowMs1 nowIso1 sym st).2).fetchCount
          = st.fetchCount + 1
      ∧ getOrRefreshHistory fs true nowMs2 nowIso2 sym
            (getOrRefreshHistory fs true nowMs1 nowIso1 sym st).2
          = (.ok (lastNTradingDays raw 5),
             (getOrRefreshHistory fs true nowMs1 nowIso1 sym st).2))
    ∧ (∀ (fs : Str → Except Str (List Pt)) (nowMs3 nowIso3 : Int)
         (sym : Str) (st : MarketsState) (e : HistEntry) (raw2 : List Pt),
        st.hist sym = some e → HISTORY_TTL_MS ≤ nowMs3 - e.cached_at →
        fs sym = .ok raw2 →
        ((getOrRefreshHistory fs true nowMs3 nowIso3 sym st).2).fetchCount
            = st.fetchCount + 1
        ∧ ((getOrRefreshHistory fs true nowMs3 nowIso3 sym st).2).hist sym
            = some { cached_at := nowIso3, series := lastNTradingDays raw2 5 })
    ∧ (∀ (fs : Str → Except Str (List Pt)) (setOk : Bool)
         (nowMs nowIso : Int) (sym : Str) (snap1 snap2 : Option MarketsObj)
         (h : Str → Option HistEntry) (c : Nat),
        (getOrRefreshHistory fs setOk nowMs nowIso sym
            { snap := snap1, hist := h, fetchCount := c }).1
          = (getOrRefreshHistory fs setOk nowMs nowIso sym
              { snap := snap2, hist := h, fetchCount := c }).1)
    ∧ ((getOrRefreshHistory constSeries true 2000 2000 "SPY".data
          (getOrRefreshHistory constSeries true 1000 1000 "SPY".data
            st0).2).2.fetchCount = 1
      ∧ (getOrRefreshHistory constSeries true 2000 2000 "SPY".data
          (getOrRefreshHistory constSeries true 1000 1000 "SPY".data st0).2).1
        = .ok [{ date := "2025-01-02".data, close := 10 }]) := by
  refine ⟨?_, ?_, ?_, rfl, rfl⟩
  · intro fs nowMs1 nowIso1 nowMs2 nowIso2 sym st raw hnone hfs hser hiso hage
    have ha := getOrRefresh_absent fs nowMs1 nowIso1 sym st raw hnone hfs
    refine ⟨by rw [ha], ?_⟩
    rw [ha]
    have hsome : (histSet st.hist sym
        { cached_at := nowIso1, series := lastNTradingDays raw 5 }) sym
          = some { cached_at := nowIso1, series := lastNTradingDays raw 5 } := by
      simp [histSet]
    exact getOrRefresh_fresh fs true nowMs2 nowIso2 sym _
      { cached_at := nowIso1, series := lastNTradingDays raw 5 }
      hsome hiso hage hser
  · intro fs nowMs3 nowIso3 sym st e raw2 hsome hage hfs
    have hc := getOrRefresh_expired fs nowMs3 nowIso3 sym st e raw2 hsome hage hfs
    refine ⟨by rw [hc], ?_⟩
    rw [hc]
    simp [histSet]
  · intro fs setOk nowMs nowIso sym snap1 snap2 h c
    unfold getOrRefreshHistory
    dsimp only
    repeat' split <;> try rfl

/-- C7 counterexample: when the upstream series cleans to an empty list, the
entry written by the first call is treated as absent by the second call even
though it is present and fresh — the two in-window calls issue two upstream
fetches, not one. -/
theorem historyCache_empty_series_cex :
    (getOrRefreshHistory emptySeries true 2000 2000 "SPY".data
        (getOrRefreshHistory emptySeries true 1000 1000 "SPY".data st0).2).2.fetchCount
        = 2
    ∧ ((getOrRefreshHistory emptySeries true 1000 1000 "SPY".data st0).2).hist
        "SPY".data = some { cached_at := 1000, series := [] }
    ∧ ((2000 : Int) - 1000 < HISTORY_TTL_MS) := by
  exact ⟨rfl, by decide, by decide⟩

/-- C8 (amended): the backfill probe fires iff the cached snapshot's history
field is absent or its SPY or IAU key is missing — only those two keys are
probed.  When it fires, the history cache is consulted for every tracked
symbol and the response carries the rebuilt full history map; when it does
not fire, the cached snapshot is served with its history map unchanged and
the history cache is never invoked — so a snapshot whose history holds SPY
and IAU but lacks QQQ or SLV is served without backfill (see the
counterexample). -/
theorem backfill_probe_spec :
    (∀ h : Option (Str → Option (List Pt)),
      backfillNeeded h = true ↔
        (h = none ∨ ∃ hm, h = some hm ∧
          (hm "SPY".data = none ∨ hm "IAU".data = none)))
    ∧ (∀ (fq : Str → Except Str QuoteData) (fs : Str → Except Str (List Pt))
         (hso sso : Bool) (nowMs nowIso : Int) (st : MarketsState)
         (cached : MarketsObj) (hs : List (List Pt)),
        st.snap = some cached → backfillNeeded cached.history = true →
        (histAll fs hso nowMs nowIso marketSyms st).1 = .ok hs →
        (marketsHandler fq fs hso sso nowMs nowIso false st).1
          = .ok { cached with
                  in_hours := false
                  current_fetch_iso := some nowIso
                  history := some (assoc marketSyms hs) })
    ∧ (∀ (fq : Str → Except Str QuoteData) (fs : Str → Except Str (List Pt))
         (hso sso : Bool) (nowMs nowIso : Int) (st : MarketsState)
         (cached : MarketsObj),
        st.snap = some cached → backfillNeeded cached.history = false →
        marketsHandler fq fs hso sso nowMs nowIso false st
          = (.ok { cached with
                   in_hours := false
                   current_fetch_iso := some nowIso }, st))
    ∧ (respHistoryAt
          ((marketsHandler constQuote constSeries true true 1000 1000 false
            stNoHist).1) "QQQ".data
        = some (some [{ date := "2025-01-02".data, close := 10 }])
      ∧ (marketsHandler constQuote constSeries true true 1000 1000 false
          stNoHist).2.fetchCount = 4) := by
  refine ⟨?_, ?_, ?_, rfl, rfl⟩
  · intro h
    rcases h with _ | hm
    · simp [backfillNeeded]
    · simp [backfillNeeded, Option.isNone_iff_eq_none]
  · intro fq fs hso sso nowMs nowIso st cached hs hsnap hbf hok
    unfold marketsHandler
    rw [if_neg (by simp)]
    rcases hh : histAll fs hso nowMs nowIso marketSyms st with ⟨r, st2⟩
    rw [hh] at hok
    simp only at hok
    subst hok
    simp [hsnap, hbf, hh]
  · intro fq fs hso sso nowMs nowIso st cached hsnap hbf
    unfold marketsHandler
    rw [if_neg (by simp)]
    simp [hsnap, hbf]

/-- C8 counterexample: a cached snapshot whose history map holds SPY and IAU
but not QQQ is served in the inactive window with its incomplete history map
— the probe does not fire, the history cache issues no fetch, and the
response's history map has no QQQ entry. -/
theorem backfill_probe_miss_cex :
    backfillNeeded partialSnap.history = false
    ∧ respHistoryAt
        (marketsHandler constQuote constSeries true true 1000 1000 false
          stPartial).1 "QQQ".data = some none
    ∧ (marketsHandler constQuote constSeries true true 1000 1000 false
        stPartial).2.fetchCount = 0 := by
  exact ⟨rfl, rfl, rfl⟩
